import Mathlib

/-!
Verification of the Beach-Safety-Chatbot backend (`app.py`).

Python strings are modelled as `List Char`; the helpers below mirror the
string operations the source uses (`str.lower`, `str.upper`, `str.strip`,
`str.split`, `str.replace`, `pat in s`, `str.title`, `"sep".join`,
`s.split(".")[0]`).  Outbound HTTP calls are modelled by passing each
call's outcome to the function as an explicit argument (`Option …`, with
`none` standing for any failure: timeout, error status, malformed body),
and the two Flask endpoints additionally return the list of outbound
calls they attempt, in order, so that "no fetch was attempted" is a
provable statement.  Numbers coming from JSON are modelled as `ℚ`.
-/

namespace BeachBot

/-- Python `s.lower()` (ASCII case mapping, the only range the source's
keyword comparisons rely on). -/
def lowerL (s : List Char) : List Char := s.map Char.toLower

/-- Python `s.upper()` (ASCII case mapping). -/
def upperL (s : List Char) : List Char := s.map Char.toUpper

/-- Python `pat in s` — substring containment (app.py lines 78, 94,
119–123, 194, 271). -/
def containsL (pat : List Char) : List Char → Bool
  | [] => pat.isEmpty
  | c :: cs => pat.isPrefixOf (c :: cs) || containsL pat cs

/-- Fuel-indexed worker for Python `s.replace(pat, "")`: delete every
non-overlapping occurrence of `pat`, scanning left to right and resuming
after each deleted occurrence.  Each step consumes at least one character
of the remaining input, so fuel `s.length` (supplied by `removeAll`)
always suffices. -/
def removeAllGo (pat : List Char) : Nat → List Char → List Char
  | 0, s => s
  | _ + 1, [] => []
  | fuel + 1, c :: cs =>
    if pat.isPrefixOf (c :: cs) then removeAllGo pat fuel ((c :: cs).drop pat.length)
    else c :: removeAllGo pat fuel cs

/-- Python `s.replace(pat, "")` (for nonempty `pat`, the only way the
source calls it; `s.replace("", "")` is the identity in Python too). -/
def removeAll (pat s : List Char) : List Char :=
  if pat.isEmpty then s else removeAllGo pat s.length s

/-- Python `s.strip()`: drop whitespace from both ends. -/
def trimBoth (s : List Char) : List Char :=
  (((s.dropWhile Char.isWhitespace).reverse).dropWhile Char.isWhitespace).reverse

/-- Worker for Python `s.split()`; `acc` holds the current word, reversed. -/
def splitWsGo : List Char → List Char → List (List Char)
  | acc, [] => if acc.isEmpty then [] else [acc.reverse]
  | acc, c :: cs =>
    if c.isWhitespace then
      if acc.isEmpty then splitWsGo [] cs else acc.reverse :: splitWsGo [] cs
    else splitWsGo (c :: acc) cs

/-- Python `s.split()` (no argument): split on whitespace runs, dropping
empty pieces. -/
def splitWs (s : List Char) : List (List Char) := splitWsGo [] s

/-- Python `sep.join(ws)`. -/
def joinSep (sep : List Char) : List (List Char) → List Char
  | [] => []
  | [w] => w
  | w :: ws => w ++ sep ++ joinSep sep ws

/-- Python `s.title()` (ASCII model): uppercase a letter that follows a
non-letter, lowercase every other letter.  The flag records whether the
previous character was a letter. -/
def pyTitleGo : Bool → List Char → List Char
  | _, [] => []
  | prev, c :: cs =>
    (if c.isAlpha then (if prev then c.toLower else c.toUpper) else c) :: pyTitleGo c.isAlpha cs

/-- Python `s.title()`. -/
def pyTitle (s : List Char) : List Char := pyTitleGo false s

/-- Python `s.split(".")[0]`: the text up to the first period (the whole
text when there is none). -/
def splitDot (s : List Char) : List Char := s.takeWhile (· != '.')

/-! ## The safety classifier (`evaluate`, app.py lines 85–96) -/

/-- The wind value handed to `evaluate` (`weather["wind"]` at the call
sites), as Python `float(wind)` sees it: either a value `float` succeeds
on (a number, or a numeric string) or one it raises on (such as the
`"N/A"` sentinel string). -/
inductive WindVal
  | num (q : ℚ)
  | bad
deriving DecidableEq

/-- The `try: wind = float(wind) / except: wind = 0` prelude of
`evaluate` (app.py lines 88–91). -/
def parseWind : WindVal → ℚ
  | .num q => q
  | .bad => 0

/-- `evaluate(wind, alert, beach)` (app.py lines 85–96): the rule-based
safety classifier. -/
def evaluate (wind : WindVal) (alert : Bool) (beach : List Char) : List Char × List Char :=
  if alert then ("NOT SUITABLE".data, "RED".data)
  else if 12 < parseWind wind then ("CAUTION".data, "YELLOW".data)
  else if containsL "marina".data beach then ("CAUTION".data, "YELLOW".data)
  else ("SUITABLE".data, "GREEN".data)

/-! ## Weather (`get_weather`, app.py lines 54–70) -/

/-- One weather field as placed in the dict returned by `get_weather`:
a number from the JSON body, or the `"N/A"` sentinel string. -/
inductive WField
  | num (q : ℚ)
  | na
deriving DecidableEq

/-- The four numbers `get_weather` reads out of a successfully parsed
Open-Meteo response (`current_weather.temperature`,
`current_weather.windspeed`, `daily.temperature_2m_min[0]`,
`daily.temperature_2m_max[0]`). -/
structure RawWeather where
  temp : ℚ
  wind : ℚ
  tmin : ℚ
  tmax : ℚ
deriving DecidableEq

/-- The dict returned by `get_weather`. -/
structure Weather where
  temp : WField
  wind : WField
  min : WField
  max : WField
deriving DecidableEq

/-- `get_weather(lat, lon)` (app.py lines 54–70).  `resp` is the outcome
of the HTTP fetch plus JSON field extraction, `none` for any failure
(timeout, malformed body, missing key), which the bare `except:` turns
into the all-`"N/A"` dict.  The coordinates only feed the request URL. -/
def get_weather (lat lon : ℚ) (resp : Option RawWeather) : Weather :=
  match lat, lon, resp with
  | _, _, some r => ⟨.num r.temp, .num r.wind, .num r.tmin, .num r.tmax⟩
  | _, _, none => ⟨.na, .na, .na, .na⟩

/-- How `weather["wind"]` looks to `float()` inside `evaluate`:
`float` succeeds on the number and raises on the `"N/A"` string. -/
def windValOf : WField → WindVal
  | .num q => .num q
  | .na => .bad

/-! ## Tsunami alert (`has_alert`, app.py lines 75–80) -/

/-- `has_alert()` (app.py lines 75–80).  `resp` is the fetched bulletin
text, `none` for any fetch failure (which the bare `except:` turns into
`False`). -/
def has_alert (resp : Option (List Char)) : Bool :=
  match resp with
  | some html => containsL "WARNING".data (upperL html)
  | none => false

/-- Spec-side definition, following the spec's words: the bulletin text
"contains the literal marker \"WARNING\" case-insensitively", i.e. the
two strings compared with case folded away.  Kept separate from
`has_alert` so that the two can be proved to agree. -/
def specContainsWarning (text : List Char) : Bool :=
  containsL (upperL "WARNING".data) (upperL text)

/-! ## Wikipedia details (`crawl_beach_details`, app.py lines 101–128) -/

/-- The dict built by `crawl_beach_details`. -/
structure Details where
  famous_for : List Char
  hotspots : List (List Char)
  safety_rules : List (List Char)
  best_time : List Char
deriving DecidableEq

/-- The dict pre-seeded at app.py lines 103–108. -/
def defaultDetails : Details :=
  ⟨"Scenic coastal destination".data,
   ["Local shoreline".data],
   ["Follow local advisories".data, "Avoid swimming during rough sea".data],
   "Morning and evening hours".data⟩

/-- The body of the `for para in p:` loop (app.py lines 117–124) for one
paragraph text. -/
def crawlStep (d : Details) (para : List Char) : Details :=
  let t := lowerL para
  let d1 :=
    if containsL "lighthouse".data t || containsL "promenade".data t
        || containsL "tourist".data t then
      { d with hotspots := d.hotspots ++ [splitDot para] }
    else d
  let d2 :=
    if containsL "swim".data t || containsL "current".data t
        || containsL "unsafe".data t then
      { d1 with safety_rules := d1.safety_rules ++ [splitDot para] }
    else d1
  if containsL "monsoon".data t then { d2 with best_time := "October to March".data }
  else d2

/-- `crawl_beach_details(beach)` (app.py lines 101–128).  `resp` carries
the text of the page's `<p>` elements on a successful fetch-and-parse,
`none` for any failure (the bare `except: pass` keeps the defaults).
The beach name only feeds the request URL. -/
def crawl_beach_details (beach : List Char) (resp : Option (List (List Char))) : Details :=
  match beach, resp with
  | _, none => defaultDetails
  | _, some paras =>
    let p := paras.take 4
    let d0 :=
      match p with
      | [] => defaultDetails
      | q :: _ => { defaultDetails with famous_for := splitDot q }
    p.foldl crawlStep d0

/-! ## Groq rewrite (`groq_rewrite`, app.py lines 133–164) -/

/-- `groq_rewrite(prompt)` (app.py lines 133–164).  `hasKey` is the
truthiness of `GROQ_API_KEY`; `httpResult` is the outcome of the HTTP
call when one is made: the returned message content, or `none` for a
non-200 status, timeout, error, or missing response field.  Without a
key the function returns `None` before any request. -/
def groq_rewrite (hasKey : Bool) (httpResult : Option (List Char)) : Option (List Char) :=
  if hasKey then httpResult else none

/-- Python truthiness of an optional string (`if ai_response:`,
`ai_enhanced if ai_enhanced else …`): `None` and `""` are falsy. -/
def optTruthy : Option (List Char) → Bool
  | none => false
  | some s => !s.isEmpty

/-! ## Coordinates (`BEACH_COORDS`, `get_coordinates`, app.py 29–49) -/

/-- The static coordinate table (app.py lines 29–34); the four-decimal
float literals `13.0500, 80.2824, 8.4000, 76.9780, 15.2993, 74.1240,
19.7983, 85.8245` written as rationals over 10000. -/
def BEACH_COORDS : List (List Char × (ℚ × ℚ)) :=
  [("marina beach".data, (mkRat 130500 10000, mkRat 802824 10000)),
   ("kovalam beach".data, (mkRat 84000 10000, mkRat 769780 10000)),
   ("goa beach".data, (mkRat 152993 10000, mkRat 741240 10000)),
   ("puri beach".data, (mkRat 197983 10000, mkRat 858245 10000))]

/-- `BEACH_COORDS.get(beach, …)` hit, or `none` on a miss. -/
def lookupStatic (beach : List Char) : Option (ℚ × ℚ) :=
  (BEACH_COORDS.find? (fun p => decide (p.1 = beach))).map (·.2)

/-- `get_coordinates(beach)` (app.py lines 39–49): the parsed latitude
and longitude of the geocoder's first result, or `(None, None)` on any
failure or empty result list.  `resp` is the outcome of the HTTP call
plus parse. -/
def get_coordinates (resp : Option (ℚ × ℚ)) : Option ℚ × Option ℚ :=
  match resp with
  | some (la, lo) => (some la, some lo)
  | none => (none, none)

/-- `BEACH_COORDS.get(beach, get_coordinates(beach))` (app.py lines 201,
273).  Python evaluates the `dict.get` default eagerly, so the geocoder
is called either way; the table value wins on a hit. -/
def lookupCoords (beach : List Char) (geo : Option ℚ × Option ℚ) : Option ℚ × Option ℚ :=
  match lookupStatic beach with
  | some (la, lo) => (some la, some lo)
  | none => geo

/-- Python falsiness of the looked-up latitude (`if not lat:`): `None`
is falsy, and so is the float `0.0`. -/
def pyFalsy : Option ℚ → Bool
  | none => true
  | some q => decide (q = 0)

/-! ## Beach-name resolution in `/ask` (app.py lines 193–199) -/

/-- The stop-word list of app.py line 197, in loop order. -/
def stopWords : List (List Char) :=
  ["safety".data, "rules".data, "regulations".data, "guidelines".data,
   "hotspots".data, "what".data, "is".data, "are".data, "the".data,
   "about".data, "tell".data, "me".data]

/-- The beach-name resolution of `/ask` (app.py lines 193–199), applied
to the already-stripped question: lowercase, append `" beach"` when
`"beach"` is absent, strip each stop word as a substring (re-stripping
whitespace after each), then collapse whitespace via `split`/`join`. -/
def resolveL (question : List Char) : List Char :=
  let msg := lowerL question
  let beach0 := if containsL "beach".data msg then msg else msg ++ " beach".data
  let cleaned := stopWords.foldl (fun b w => trimBoth (removeAll w b)) beach0
  joinSep [' '] (splitWs cleaned)

/-! ## The `/ask` and `/chat` endpoints (app.py lines 176–304) -/

/-- Rendering of a weather field into the response text.  Numeric
rendering is abstracted by `toString`; the claims under verification
never depend on the digits of an interpolated number, only on the text
around them and on the `"N/A"` sentinel. -/
def showWF : WField → List Char
  | .num q => (toString q).data
  | .na => "N/A".data

/-- `chr(10).join(['• ' + h for h in items])` (app.py lines 228, 231). -/
def bulletJoin (items : List (List Char)) : List Char :=
  joinSep "\n".data (items.map (fun h => "• ".data ++ h))

/-- The templated `response_text` f-string of app.py lines 218–238,
byte for byte (with `showWF` standing for Python's float rendering).
Note the `[:3]` and `[:4]` truncations on hotspots and safety rules. -/
def responseText (beach : List Char) (w : Weather) (status : List Char) (d : Details) : List Char :=
  "**".data ++ pyTitle beach ++ "** - Status: **".data ++ status ++
  "**\n\n🌡️ **Current Weather:**\n- Temperature: ".data ++ showWF w.temp ++
  "°C (Min: ".data ++ showWF w.min ++ "°C, Max: ".data ++ showWF w.max ++
  "°C)\n- Wind Speed: ".data ++ showWF w.wind ++
  " km/h\n\n📍 **Famous For:**\n".data ++ d.famous_for ++
  "\n\n🏖️ **Hotspots:**\n".data ++ bulletJoin (d.hotspots.take 3) ++
  "\n\n⚠️ **Safety Rules:**\n".data ++ bulletJoin (d.safety_rules.take 4) ++
  "\n\n🕐 **Best Time to Visit:**\n".data ++ d.best_time ++
  "\n\n📊 **Water Quality:**\nBaseline coastal water quality monitored under NWMP guidelines.\n".data

/-- The `base_reply` f-string of app.py lines 282–286. -/
def baseReply (beach : List Char) (status : List Char) (w : Weather) : List Char :=
  pyTitle beach ++ " is currently ".data ++ status ++ ". Temperature is around ".data ++
  showWF w.temp ++ "°C with wind speed of ".data ++ showWF w.wind ++
  " km/h. Visitors should follow safety rules.".data

/-- The outbound HTTP calls an endpoint can attempt. -/
inductive ExtCall
  | geocodeC
  | weatherC
  | alertC
  | wikiC
  | groqC
deriving DecidableEq

/-- Outcomes of the external calls `/ask` can make, passed in as data:
geocoder result, `GROQ_API_KEY` truthiness, the HTTP outcome of the two
possible Groq calls, weather response, bulletin text, wiki paragraphs. -/
structure AskEnv where
  geocode : Option (ℚ × ℚ)
  hasKey : Bool
  groqAns : Option (List Char)
  weatherResp : Option RawWeather
  alertHtml : Option (List Char)
  wikiResp : Option (List (List Char))
  groqEnh : Option (List Char)

/-- The three shapes of `/ask`'s JSON body: the `{"error": …}` object,
the AI-fallback `{"answer", "sources"}` object (app.py lines 206–209),
and the full payload of app.py lines 243–251 (the constant `sources`
list is omitted). -/
inductive AskResponse
  | err (msg : List Char)
  | fallback (answer : List Char)
  | full (answer beach status color : List Char) (lat lon : ℚ)
deriving DecidableEq

/-- The `/ask` endpoint body (app.py lines 186–251) for a POST with the
given (raw) question string, returning the JSON payload together with
the trace of outbound calls attempted, in order.  `dict.get`'s default
argument is evaluated eagerly in Python, so the geocoder is called on
every non-empty question. -/
def ask (env : AskEnv) (rawQuestion : List Char) : AskResponse × List ExtCall :=
  let question := trimBoth rawQuestion
  if question.isEmpty then (.err "Please enter a question about a beach".data, [])
  else
    let beach := resolveL question
    let coords := lookupCoords beach (get_coordinates env.geocode)
    if pyFalsy coords.1 then
      let ai := groq_rewrite env.hasKey env.groqAns
      if optTruthy ai then (.fallback (ai.getD []), [.geocodeC, .groqC])
      else
        (.err "Unable to locate this beach in India. Please try a specific beach name.".data,
         [.geocodeC, .groqC])
    else
      let lat := coords.1.getD 0
      let lon := coords.2.getD 0
      let weather := get_weather lat lon env.weatherResp
      let alert := has_alert env.alertHtml
      let sc := evaluate (windValOf weather.wind) alert beach
      let details := crawl_beach_details beach env.wikiResp
      let text := responseText beach weather sc.1 details
      let ai := groq_rewrite env.hasKey env.groqEnh
      let answer := if optTruthy ai then ai.getD [] else text
      (.full answer (pyTitle beach) sc.1 sc.2 lat lon,
       [.geocodeC, .weatherC, .alertC, .wikiC, .groqC])

/-- Outcomes of the external calls `/chat` can make. -/
structure ChatEnv where
  geocode : Option (ℚ × ℚ)
  hasKey : Bool
  weatherResp : Option RawWeather
  alertHtml : Option (List Char)
  wikiResp : Option (List (List Char))
  groqReply : Option (List Char)

/-- The two shapes of `/chat`'s JSON body (error object, or the payload
of app.py lines 291–304; the constant `water_details` is omitted). -/
inductive ChatResponse
  | err (msg : List Char)
  | ok (beach status color : List Char) (weather : Weather) (lat lon : ℚ)
      (famous_for : List Char) (hotspots safety_rules : List (List Char))
      (best_time reply : List Char)
deriving DecidableEq

/-- The `/chat` endpoint body (app.py lines 265–304). -/
def chat (env : ChatEnv) (rawMessage : List Char) : ChatResponse × List ExtCall :=
  let msg := trimBoth (lowerL rawMessage)
  if msg.isEmpty then (.err "Please enter a beach name".data, [])
  else
    let beach := if containsL "beach".data msg then msg else msg ++ " beach".data
    let coords := lookupCoords beach (get_coordinates env.geocode)
    if pyFalsy coords.1 then (.err "Unable to locate this beach in India".data, [.geocodeC])
    else
      let lat := coords.1.getD 0
      let lon := coords.2.getD 0
      let weather := get_weather lat lon env.weatherResp
      let alert := has_alert env.alertHtml
      let sc := evaluate (windValOf weather.wind) alert beach
      let details := crawl_beach_details beach env.wikiResp
      let base := baseReply beach sc.1 weather
      let ai := groq_rewrite env.hasKey env.groqReply
      let reply := if optTruthy ai then ai.getD [] else base
      (.ok (pyTitle beach) sc.1 sc.2 weather lat lon details.famous_for
        (details.hotspots.take 3) (details.safety_rules.take 4) details.best_time reply,
       [.geocodeC, .weatherC, .alertC, .wikiC, .groqC])

/-- Does an `/ask` payload carry the `"error"` field? -/
def isErr : AskResponse → Bool
  | .err _ => true
  | _ => false

/-- Is an `/ask` payload the full (resolved-location) payload? -/
def isFull : AskResponse → Bool
  | .full .. => true
  | _ => false

/-- The `"answer"` (resp. `"error"`) text of an `/ask` payload. -/
def answerOf : AskResponse → List Char
  | .err m => m
  | .fallback a => a
  | .full a _ _ _ _ _ => a

/-! ## Generic helper lemmas -/

theorem prefRefl {α} (l : List α) : l <+: l := ⟨[], List.append_nil l⟩

theorem prefAppend {α} (l t : List α) : l <+: l ++ t := ⟨t, rfl⟩

theorem prefTrans {α} {a b c : List α} (h1 : a <+: b) (h2 : b <+: c) : a <+: c := by
  obtain ⟨t1, rfl⟩ := h1
  obtain ⟨t2, rfl⟩ := h2
  exact ⟨t1 ++ t2, (List.append_assoc a t1 t2).symm⟩

theorem toNat_ofNat_of_valid {n : Nat} (h : n.isValidChar) : (Char.ofNat n).toNat = n := by
  rw [Char.ofNat, dif_pos h]
  rfl

/-- ASCII case-lowering is idempotent. -/
theorem toLower_toLower (c : Char) : c.toLower.toLower = c.toLower := by
  simp only [Char.toLower]
  by_cases h : c.toNat ≥ 65 ∧ c.toNat ≤ 90
  · rw [if_pos h]
    have hv : Nat.isValidChar (c.toNat + 32) := Or.inl (by omega)
    have ht : (Char.ofNat (c.toNat + 32)).toNat = c.toNat + 32 := toNat_ofNat_of_valid hv
    rw [ht, if_neg (by omega)]
  · rw [if_neg h, if_neg h]

theorem map_fixed {α} {f : α → α} : ∀ {l : List α}, (∀ c ∈ l, f c = c) → l.map f = l
  | [], _ => rfl
  | c :: cs, h => by
    rw [List.map_cons, h c (List.mem_cons_self c cs),
      map_fixed (fun x hx => h x (List.mem_cons_of_mem c hx))]

theorem foldl_fix {α β} (f : α → β → α) (a : α) :
    ∀ l : List β, (∀ b ∈ l, f a b = a) → l.foldl f a = a
  | [], _ => rfl
  | b :: l, h => by
    rw [List.foldl_cons, h b (List.mem_cons_self b l),
      foldl_fix f a l (fun x hx => h x (List.mem_cons_of_mem b hx))]

theorem joinSep_single (sep w : List Char) : joinSep sep [w] = w := rfl

theorem joinSep_cons_cons (sep w w2 : List Char) (ws : List (List Char)) :
    joinSep sep (w :: w2 :: ws) = w ++ sep ++ joinSep sep (w2 :: ws) := rfl

/-- Splitting a failed containment test at a cons cell. -/
theorem containsL_cons_false {pat : List Char} {c : Char} {cs : List Char}
    (h : containsL pat (c :: cs) = false) :
    pat.isPrefixOf (c :: cs) = false ∧ containsL pat cs = false := by
  rw [containsL, Bool.or_eq_false_iff] at h
  exact h

/-- `replace(pat, "")` leaves a string without occurrences unchanged. -/
theorem removeAllGo_of_not_contains (pat : List Char) :
    ∀ (fuel : Nat) (s : List Char), containsL pat s = false → removeAllGo pat fuel s = s := by
  intro fuel
  induction fuel with
  | zero => intro s _; rfl
  | succ n ih =>
    intro s h
    cases s with
    | nil => rfl
    | cons c cs =>
      obtain ⟨h1, h2⟩ := containsL_cons_false h
      simp [removeAllGo, h1, ih cs h2]

theorem removeAll_of_not_contains (pat s : List Char) (h : containsL pat s = false) :
    removeAll pat s = s := by
  unfold removeAll
  split
  · rfl
  · exact removeAllGo_of_not_contains pat s.length s h

/-- `replace(pat, "")` only deletes characters. -/
theorem mem_removeAllGo (pat : List Char) :
    ∀ (fuel : Nat) (s : List Char) (c : Char), c ∈ removeAllGo pat fuel s → c ∈ s := by
  intro fuel
  induction fuel with
  | zero => intro s c h; exact h
  | succ n ih =>
    intro s c h
    cases s with
    | nil =>
      rw [removeAllGo] at h
      exact h
    | cons a cs =>
      by_cases hp : pat.isPrefixOf (a :: cs)
      · rw [removeAllGo, if_pos hp] at h
        exact List.drop_subset _ _ (ih _ _ h)
      · rw [removeAllGo, if_neg hp] at h
        rcases List.mem_cons.mp h with h | h
        · simp [h]
        · exact List.mem_cons_of_mem _ (ih _ _ h)

theorem mem_removeAll {pat s : List Char} {c : Char} (h : c ∈ removeAll pat s) : c ∈ s := by
  unfold removeAll at h
  split at h
  · exact h
  · exact mem_removeAllGo pat s.length s c h

/-- `strip()` only deletes characters. -/
theorem mem_trimBoth {s : List Char} {c : Char} (h : c ∈ trimBoth s) : c ∈ s := by
  unfold trimBoth at h
  rw [List.mem_reverse] at h
  have h2 := (List.dropWhile_sublist Char.isWhitespace).subset h
  rw [List.mem_reverse] at h2
  exact (List.dropWhile_sublist Char.isWhitespace).subset h2

/-- The words produced by `split()` are nonempty and whitespace-free. -/
theorem splitWsGo_words (s : List Char) :
    ∀ acc : List Char, (∀ c ∈ acc, c.isWhitespace = false) →
      ∀ w ∈ splitWsGo acc s, w ≠ [] ∧ ∀ c ∈ w, c.isWhitespace = false := by
  induction s with
  | nil =>
    intro acc hacc w hw
    rw [splitWsGo] at hw
    by_cases ha : acc.isEmpty
    · rw [if_pos ha] at hw
      exact absurd hw (List.not_mem_nil w)
    · rw [if_neg ha] at hw
      rcases List.mem_singleton.mp hw with rfl
      refine ⟨fun habs => ha ?_, fun c hc => hacc c (List.mem_reverse.mp hc)⟩
      rw [List.isEmpty_iff, ← List.reverse_eq_nil_iff, habs]
  | cons a t ih =>
    intro acc hacc w hw
    rw [splitWsGo] at hw
    by_cases hsp : a.isWhitespace
    · rw [if_pos hsp] at hw
      by_cases ha : acc.isEmpty
      · rw [if_pos ha] at hw
        exact ih [] (by simp) w hw
      · rw [if_neg ha] at hw
        rcases List.mem_cons.mp hw with rfl | hw2
        · refine ⟨fun habs => ha ?_, fun c hc => hacc c (List.mem_reverse.mp hc)⟩
          rw [List.isEmpty_iff, ← List.reverse_eq_nil_iff, habs]
        · exact ih [] (by simp) w hw2
    · rw [if_neg hsp] at hw
      refine ih (a :: acc) ?_ w hw
      intro c hc
      rcases List.mem_cons.mp hc with rfl | hc2
      · exact Bool.eq_false_iff.mpr hsp
      · exact hacc c hc2

/-- `split()` carries a whitespace-free chunk wholesale into the
accumulator. -/
theorem splitWsGo_append (w : List Char) :
    ∀ (acc cs : List Char), (∀ c ∈ w, c.isWhitespace = false) →
      splitWsGo acc (w ++ cs) = splitWsGo (w.reverse ++ acc) cs := by
  induction w with
  | nil => intro acc cs _; simp
  | cons a w' ih =>
    intro acc cs h
    have ha : a.isWhitespace = false := h a (List.mem_cons_self a w')
    rw [List.cons_append, splitWsGo, if_neg (by simp [ha]),
      ih (a :: acc) cs (fun c hc => h c (List.mem_cons_of_mem a hc))]
    simp [List.append_assoc]

/-- Words survive a `join`-then-`split` round trip. -/
theorem splitWs_joinSep :
    ∀ ws : List (List Char),
      (∀ w ∈ ws, w ≠ [] ∧ ∀ c ∈ w, c.isWhitespace = false) →
      splitWs (joinSep [' '] ws) = ws := by
  intro ws
  induction ws with
  | nil => intro _; rfl
  | cons w ws ih =>
    intro h
    obtain ⟨hne, hw⟩ := h w (List.mem_cons_self w ws)
    cases ws with
    | nil =>
      show splitWsGo [] (joinSep [' '] [w]) = [w]
      have h2 := splitWsGo_append w [] [] hw
      rw [List.append_nil, List.append_nil] at h2
      rw [joinSep_single, h2, splitWsGo, if_neg (by simp [hne]), List.reverse_reverse]
    | cons w2 ws2 =>
      show splitWsGo [] (joinSep [' '] (w :: w2 :: ws2)) = w :: w2 :: ws2
      have hrest := ih (fun x hx => h x (List.mem_cons_of_mem w hx))
      rw [joinSep_cons_cons, List.append_assoc, List.singleton_append,
        splitWsGo_append w [] (' ' :: joinSep [' '] (w2 :: ws2)) hw,
        List.append_nil, splitWsGo, if_pos (by decide),
        if_neg (by simp [hne]), List.reverse_reverse]
      exact congrArg (w :: ·) hrest

/-- The join of nonempty words is nonempty. -/
theorem joinSep_ne_nil :
    ∀ ws : List (List Char), ws ≠ [] →
      (∀ w ∈ ws, w ≠ []) → joinSep [' '] ws ≠ []
  | [], h, _ => absurd rfl h
  | [w], _, h => by
    rw [joinSep_single]
    exact h w (List.mem_singleton.mpr rfl)
  | w :: w2 :: ws, _, h => by
    rw [joinSep_cons_cons]
    simp [h w (List.mem_cons_self w (w2 :: ws))]

theorem dropWhile_cons_self {p : Char → Bool} {b : Char} {t : List Char}
    (h : List.dropWhile p (b :: t) = b :: t) : p b = false := by
  cases hpb : p b
  · rfl
  · rw [List.dropWhile_cons_of_pos hpb] at h
    have hlen := congrArg List.length h
    have hle := (List.dropWhile_sublist (l := t) p).length_le
    simp at hlen
    omega

/-- `strip()` does not touch the front of a join of whitespace-free
nonempty words. -/
theorem dropWhile_joinSep :
    ∀ ws : List (List Char),
      (∀ w ∈ ws, w ≠ [] ∧ ∀ c ∈ w, c.isWhitespace = false) →
      List.dropWhile Char.isWhitespace (joinSep [' '] ws) = joinSep [' '] ws := by
  intro ws h
  cases ws with
  | nil => rfl
  | cons w ws2 =>
    obtain ⟨hne, hw⟩ := h w (List.mem_cons_self w ws2)
    cases w with
    | nil => exact absurd rfl hne
    | cons a w' =>
      have ha : a.isWhitespace = false := hw a (List.mem_cons_self a w')
      cases ws2 with
      | nil =>
        rw [joinSep_single, List.dropWhile_cons_of_neg (by simp [ha])]
      | cons w2 ws3 =>
        rw [joinSep_cons_cons, List.cons_append, List.cons_append,
          List.dropWhile_cons_of_neg (by simp [ha])]

/-- `strip()` does not touch the back of a join of whitespace-free
nonempty words. -/
theorem dropWhile_reverse_joinSep :
    ∀ ws : List (List Char),
      (∀ w ∈ ws, w ≠ [] ∧ ∀ c ∈ w, c.isWhitespace = false) →
      List.dropWhile Char.isWhitespace (joinSep [' '] ws).reverse =
        (joinSep [' '] ws).reverse := by
  intro ws
  induction ws with
  | nil => intro _; rfl
  | cons w ws2 ih =>
    intro h
    obtain ⟨hne, hw⟩ := h w (List.mem_cons_self w ws2)
    cases ws2 with
    | nil =>
      rw [joinSep_single]
      cases hrev : w.reverse with
      | nil => rw [List.reverse_eq_nil_iff] at hrev; exact absurd hrev hne
      | cons b t =>
        have hb : b ∈ w := by
          rw [← List.mem_reverse, hrev]
          exact List.mem_cons_self b t
        rw [List.dropWhile_cons_of_neg (by simp [hw b hb])]
    | cons w2 ws3 =>
      have hj := ih (fun x hx => h x (List.mem_cons_of_mem w hx))
      have hjne : joinSep [' '] (w2 :: ws3) ≠ [] :=
        joinSep_ne_nil (w2 :: ws3) (by simp)
          (fun x hx => (h x (List.mem_cons_of_mem w hx)).1)
      rw [joinSep_cons_cons]
      cases hrev : (joinSep [' '] (w2 :: ws3)).reverse with
      | nil => rw [List.reverse_eq_nil_iff] at hrev; exact absurd hrev hjne
      | cons b t =>
        rw [hrev] at hj
        have hb : Char.isWhitespace b = false := dropWhile_cons_self hj
        have hsplit : ((w ++ [' ']) ++ joinSep [' '] (w2 :: ws3)).reverse
            = b :: (t ++ (' ' :: w.reverse)) := by
          rw [List.reverse_append, hrev, List.reverse_append]
          simp
        rw [hsplit, List.dropWhile_cons_of_neg (by simp [hb])]

/-- `strip()` is the identity on a join of whitespace-free nonempty
words. -/
theorem trim_joinSep (ws : List (List Char))
    (h : ∀ w ∈ ws, w ≠ [] ∧ ∀ c ∈ w, c.isWhitespace = false) :
    trimBoth (joinSep [' '] ws) = joinSep [' '] ws := by
  unfold trimBoth
  rw [dropWhile_joinSep ws h, dropWhile_reverse_joinSep ws h, List.reverse_reverse]

/-- Characters of a space-join come from the words or are the space. -/
theorem mem_joinSep {c : Char} :
    ∀ ws : List (List Char), c ∈ joinSep [' '] ws → c = ' ' ∨ ∃ w ∈ ws, c ∈ w
  | [], h => absurd h (List.not_mem_nil c)
  | [w], h => Or.inr ⟨w, List.mem_singleton.mpr rfl, by rwa [joinSep_single] at h⟩
  | w :: w2 :: ws, h => by
    rw [joinSep_cons_cons, List.append_assoc] at h
    rcases List.mem_append.mp h with h1 | h2
    · exact Or.inr ⟨w, List.mem_cons_self _ _, h1⟩
    · rcases List.mem_append.mp h2 with h3 | h4
      · exact Or.inl (List.mem_singleton.mp h3)
      · rcases mem_joinSep (w2 :: ws) h4 with h5 | ⟨x, hx, hcx⟩
        · exact Or.inl h5
        · exact Or.inr ⟨x, List.mem_cons_of_mem _ hx, hcx⟩

/-- Characters of the words of `split()` come from the input (or the
accumulator). -/
theorem mem_splitWsGo {c : Char} :
    ∀ (s acc w : List Char), w ∈ splitWsGo acc s → c ∈ w → c ∈ s ∨ c ∈ acc := by
  intro s
  induction s with
  | nil =>
    intro acc w hw hc
    rw [splitWsGo] at hw
    by_cases ha : acc.isEmpty
    · rw [if_pos ha] at hw
      exact absurd hw (List.not_mem_nil w)
    · rw [if_neg ha] at hw
      rcases List.mem_singleton.mp hw with rfl
      exact Or.inr (List.mem_reverse.mp hc)
  | cons a t ih =>
    intro acc w hw hc
    rw [splitWsGo] at hw
    by_cases hsp : a.isWhitespace
    · rw [if_pos hsp] at hw
      by_cases ha : acc.isEmpty
      · rw [if_pos ha] at hw
        rcases ih [] w hw hc with h | h
        · exact Or.inl (List.mem_cons_of_mem a h)
        · exact absurd h (List.not_mem_nil c)
      · rw [if_neg ha] at hw
        rcases List.mem_cons.mp hw with rfl | hw2
        · exact Or.inr (List.mem_reverse.mp hc)
        · rcases ih [] w hw2 hc with h | h
          · exact Or.inl (List.mem_cons_of_mem a h)
          · exact absurd h (List.not_mem_nil c)
    · rw [if_neg hsp] at hw
      rcases ih (a :: acc) w hw hc with h | h
      · exact Or.inl (List.mem_cons_of_mem a h)
      · rcases List.mem_cons.mp h with rfl | h2
        · exact Or.inl (List.mem_cons_self c t)
        · exact Or.inr h2

/-- The stop-word cleanup loop only deletes characters. -/
theorem mem_foldl_clean (l : List (List Char)) :
    ∀ (b0 : List Char) (c : Char),
      c ∈ l.foldl (fun b w => trimBoth (removeAll w b)) b0 → c ∈ b0 := by
  induction l with
  | nil => intro b0 c h; exact h
  | cons w l ih =>
    intro b0 c h
    rw [List.foldl_cons] at h
    exact mem_removeAll (mem_trimBoth (ih _ c h))

/-- Every character of a resolved beach name is the space, a character
of the lowered question, or a character of the appended `" beach"`. -/
theorem mem_resolveL {q : List Char} {c : Char} (h : c ∈ resolveL q) :
    c = ' ' ∨ c ∈ lowerL q ∨ c ∈ " beach".data := by
  rcases mem_joinSep _ h with hsp | ⟨w, hw, hcw⟩
  · exact Or.inl hsp
  · rcases mem_splitWsGo _ [] w hw hcw with h1 | h1
    · have h2 := mem_foldl_clean stopWords _ c h1
      by_cases hb : containsL "beach".data (lowerL q) = true
      · rw [if_pos hb] at h2
        exact Or.inr (Or.inl h2)
      · rw [if_neg hb] at h2
        rcases List.mem_append.mp h2 with h3 | h3
        · exact Or.inr (Or.inl h3)
        · exact Or.inr (Or.inr h3)
    · exact absurd h1 (List.not_mem_nil c)

/-- A resolved beach name is already lowercase. -/
theorem lowerL_resolveL (q : List Char) : lowerL (resolveL q) = resolveL q := by
  apply map_fixed
  intro c hc
  rcases mem_resolveL hc with rfl | hc2 | hc2
  · decide
  · rcases List.mem_map.mp hc2 with ⟨a, _, rfl⟩
    exact toLower_toLower a
  · fin_cases hc2 <;> decide

/-- A resolved beach name is a join of whitespace-free nonempty words. -/
theorem resolveL_shape (q : List Char) :
    ∃ ws : List (List Char), resolveL q = joinSep [' '] ws ∧
      ∀ w ∈ ws, w ≠ [] ∧ ∀ c ∈ w, c.isWhitespace = false :=
  ⟨splitWs (stopWords.foldl (fun b w => trimBoth (removeAll w b))
      (if containsL "beach".data (lowerL q) then lowerL q else lowerL q ++ " beach".data)),
   rfl,
   fun w hw => splitWsGo_words _ [] (fun c hc => absurd hc (List.not_mem_nil c)) w hw⟩

/-- `crawlStep` only ever appends to the hotspot list. -/
theorem crawlStep_hotspots (d : Details) (p : List Char) :
    d.hotspots <+: (crawlStep d p).hotspots := by
  simp only [crawlStep]
  split <;> split <;> split <;> simp [prefRefl, prefAppend]

/-- `crawlStep` only ever appends to the safety-rule list. -/
theorem crawlStep_rules (d : Details) (p : List Char) :
    d.safety_rules <+: (crawlStep d p).safety_rules := by
  simp only [crawlStep]
  split <;> split <;> split <;> simp [prefRefl, prefAppend]

theorem foldl_crawlStep_hotspots (ps : List (List Char)) :
    ∀ d : Details, d.hotspots <+: (ps.foldl crawlStep d).hotspots := by
  induction ps with
  | nil => intro d; exact prefRefl _
  | cons p ps ih =>
    intro d
    exact prefTrans (crawlStep_hotspots d p) (ih (crawlStep d p))

theorem foldl_crawlStep_rules (ps : List (List Char)) :
    ∀ d : Details, d.safety_rules <+: (ps.foldl crawlStep d).safety_rules := by
  induction ps with
  | nil => intro d; exact prefRefl _
  | cons p ps ih =>
    intro d
    exact prefTrans (crawlStep_rules d p) (ih (crawlStep d p))

/-! ## The claims -/

/-- Claim C1: for every wind value (any string or number) and every
beach name, if the alert flag is true then `evaluate` returns exactly
`(NOT SUITABLE, RED)`, regardless of the wind value or the name. -/
theorem claim1_alert_always_red (w : WindVal) (beach : List Char) :
    evaluate w true beach = ("NOT SUITABLE".data, "RED".data) := rfl

/-- Claim C2: with the alert flag false, a wind input whose parsed value
(unparsable input treated as `0`) exceeds `12` makes `evaluate` return
`(CAUTION, YELLOW)` for every beach name; and the `"N/A"` weather
sentinel parses to `0`, so it can never trigger this branch. -/
theorem claim2_high_wind_caution :
    (∀ (w : WindVal) (beach : List Char), 12 < parseWind w →
      evaluate w false beach = ("CAUTION".data, "YELLOW".data)) ∧
    parseWind (windValOf WField.na) = 0 := by
  refine ⟨fun w beach h => ?_, rfl⟩
  simp [evaluate, h]

/-- Witness for C2 at wind 15 and beach `"goa beach"`. -/
theorem claim2_high_wind_caution_witness :
    12 < parseWind (WindVal.num 15) ∧
    evaluate (WindVal.num 15) false "goa beach".data = ("CAUTION".data, "YELLOW".data) :=
  ⟨by decide, claim2_high_wind_caution.1 (WindVal.num 15) "goa beach".data (by decide)⟩

/-- Claim C3: with the alert flag false and parsed wind at most `12`,
`evaluate` returns `(CAUTION, YELLOW)` when the beach name contains the
substring `"marina"`, and `(SUITABLE, GREEN)` when it does not. -/
theorem claim3_calm_wind_marina (w : WindVal) (beach : List Char)
    (h : parseWind w ≤ 12) :
    (containsL "marina".data beach = true →
      evaluate w false beach = ("CAUTION".data, "YELLOW".data)) ∧
    (containsL "marina".data beach = false →
      evaluate w false beach = ("SUITABLE".data, "GREEN".data)) := by
  have hw : ¬ (12 < parseWind w) := not_lt.mpr h
  exact ⟨fun hm => by simp [evaluate, hw, hm], fun hm => by simp [evaluate, hw, hm]⟩

/-- Witness for C3 at wind 5, beaches `"marina beach"` and `"goa beach"`. -/
theorem claim3_calm_wind_marina_witness :
    parseWind (WindVal.num 5) ≤ 12 ∧
    evaluate (WindVal.num 5) false "marina beach".data = ("CAUTION".data, "YELLOW".data) ∧
    evaluate (WindVal.num 5) false "goa beach".data = ("SUITABLE".data, "GREEN".data) :=
  ⟨by decide,
   (claim3_calm_wind_marina (WindVal.num 5) "marina beach".data (by decide)).1 (by decide),
   (claim3_calm_wind_marina (WindVal.num 5) "goa beach".data (by decide)).2 (by decide)⟩

set_option maxRecDepth 8000 in
/-- Claim C4 counterexample: name resolution is not idempotent.  On the
input `"beachotspots"` the first pass keeps the name (it contains
`"beach"`) but the stop-word `"hotspots"` then swallows the trailing
characters of `"beach"`, leaving `"beac"`; the second pass appends
`" beach"` to that, yielding `"beac beach"`. -/
theorem claim4_resolution_counterexample :
    resolveL (resolveL "beachotspots".data) ≠ resolveL "beachotspots".data := by decide

/-- Claim C4 (amended): the resolution of `/ask` is idempotent on every
input whose resolved name still contains `"beach"` and contains no
stop word as a substring; in general a second application can change
the name (see the counterexample). -/
theorem claim4_resolution_idem_on_clean (q : List Char)
    (hb : containsL "beach".data (resolveL q) = true)
    (hs : ∀ w ∈ stopWords, containsL w (resolveL q) = false) :
    resolveL (resolveL q) = resolveL q := by
  obtain ⟨ws, hy, hnorm⟩ := resolveL_shape q
  have hA : trimBoth (resolveL q) = resolveL q := by
    rw [hy]
    exact trim_joinSep ws hnorm
  have hB : joinSep [' '] (splitWs (resolveL q)) = resolveL q := by
    conv_lhs => rw [hy]
    rw [splitWs_joinSep ws hnorm]
    exact hy.symm
  have hC : lowerL (resolveL q) = resolveL q := lowerL_resolveL q
  have hstep : ∀ w ∈ stopWords, trimBoth (removeAll w (resolveL q)) = resolveL q := by
    intro w hw
    rw [removeAll_of_not_contains w _ (hs w hw)]
    exact hA
  have hfold : stopWords.foldl (fun b w => trimBoth (removeAll w b)) (resolveL q)
      = resolveL q :=
    foldl_fix (fun b w => trimBoth (removeAll w b)) (resolveL q) stopWords hstep
  have hunf : resolveL (resolveL q) = joinSep [' ']
      (splitWs (stopWords.foldl (fun b w => trimBoth (removeAll w b))
        (if containsL "beach".data (lowerL (resolveL q)) then lowerL (resolveL q)
         else lowerL (resolveL q) ++ " beach".data))) := rfl
  rw [hunf, hC, if_pos hb, hfold, hB]

set_option maxRecDepth 8000 in
/-- Witness for amended C4 at the input `"marina beach safety"`, whose
resolution `"marina beach"` contains `"beach"` and no stop word. -/
theorem claim4_resolution_idem_witness :
    containsL "beach".data (resolveL "marina beach safety".data) = true ∧
    (∀ w ∈ stopWords, containsL w (resolveL "marina beach safety".data) = false) ∧
    resolveL (resolveL "marina beach safety".data) = resolveL "marina beach safety".data :=
  ⟨by decide, by decide,
   claim4_resolution_idem_on_clean "marina beach safety".data (by decide) (by decide)⟩

/-- Claim C5: for every coordinate pair, when the weather fetch or its
parsing fails in any way (`resp = none`), `get_weather` returns the
complete four-field structure with every field set to the `"N/A"`
sentinel — by construction no exception propagates. -/
theorem claim5_weather_sentinel (lat lon : ℚ) :
    get_weather lat lon none = ⟨.na, .na, .na, .na⟩ := rfl

/-- Claim C6: `has_alert` returns true iff the fetched bulletin text
contains the marker `"WARNING"` case-insensitively (both sides
upper-cased, per the spec's words in `specContainsWarning`), and returns
false whenever the fetch fails. -/
theorem claim6_alert_marker :
    (∀ text : List Char, has_alert (some text) = specContainsWarning text) ∧
    has_alert none = false := by
  refine ⟨fun t => ?_, rfl⟩
  have h : upperL "WARNING".data = "WARNING".data := by decide
  simp [has_alert, specContainsWarning, h]

set_option maxRecDepth 8000 in
/-- Claim C7 counterexample: on an unresolvable beach name, when the
text-generation credential is present and the call returns a nonempty
answer, `/ask` responds with that answer and no error field — the claim
that the response always contains an error field fails. -/
theorem claim7_counterexample :
    pyFalsy (lookupCoords (resolveL (trimBoth "atlantis".data))
      (get_coordinates none)).1 = true ∧
    isErr (ask ⟨none, true, some "Goa has many famous beaches.".data, none, none, none, none⟩
      "atlantis".data).1 = false := by decide

/-- Claim C7 (amended): for every request whose nonempty question
resolves to falsy coordinates, `/ask` attempts exactly the geocoder call
and the secondary text-generation fallback — no weather, alert, or
detail fetch — and returns the fallback answer when that call yields a
truthy result, and the error payload otherwise. -/
theorem claim7_unresolved_no_fetches (env : AskEnv) (rawQ : List Char)
    (hne : (trimBoth rawQ).isEmpty = false)
    (hfail : pyFalsy (lookupCoords (resolveL (trimBoth rawQ))
      (get_coordinates env.geocode)).1 = true) :
    (ask env rawQ).2 = [ExtCall.geocodeC, ExtCall.groqC] ∧
    ExtCall.weatherC ∉ (ask env rawQ).2 ∧
    ExtCall.alertC ∉ (ask env rawQ).2 ∧
    ExtCall.wikiC ∉ (ask env rawQ).2 ∧
    (ask env rawQ).1 =
      (if optTruthy (groq_rewrite env.hasKey env.groqAns) then
        AskResponse.fallback ((groq_rewrite env.hasKey env.groqAns).getD [])
      else
        AskResponse.err
          "Unable to locate this beach in India. Please try a specific beach name.".data) := by
  by_cases hai : optTruthy (groq_rewrite env.hasKey env.groqAns) = true
  · simp [ask, hne, hfail, hai]
  · simp [ask, hne, hfail, hai]

set_option maxRecDepth 8000 in
/-- Witness for amended C7: an unresolvable question with no Groq
credential yields the error payload after geocode and fallback only. -/
theorem claim7_unresolved_witness :
    (trimBoth "atlantis".data).isEmpty = false ∧
    (ask ⟨none, false, none, none, none, none, none⟩ "atlantis".data).2 =
      [ExtCall.geocodeC, ExtCall.groqC] ∧
    (ask ⟨none, false, none, none, none, none, none⟩ "atlantis".data).1 =
      AskResponse.err
        "Unable to locate this beach in India. Please try a specific beach name.".data :=
  ⟨by decide,
   (claim7_unresolved_no_fetches ⟨none, false, none, none, none, none, none⟩ "atlantis".data
     (by decide) (by decide)).1,
   ((claim7_unresolved_no_fetches ⟨none, false, none, none, none, none, none⟩ "atlantis".data
     (by decide) (by decide)).2.2.2.2)⟩

set_option maxRecDepth 8000 in
/-- Claim C8: when the enhancement text-generation call yields no
result, the `/ask` answer field equals the deterministically templated
`responseText` built from the weather, verdict, and details inputs,
byte for byte; and that template depends on at most the first 3
hotspots and the first 4 safety rules. -/
theorem claim8_template_fallback (env : AskEnv) (rawQ : List Char)
    (hne : (trimBoth rawQ).isEmpty = false)
    (hloc : pyFalsy (lookupCoords (resolveL (trimBoth rawQ))
      (get_coordinates env.geocode)).1 = false)
    (hai : groq_rewrite env.hasKey env.groqEnh = none) :
    answerOf (ask env rawQ).1 =
      responseText (resolveL (trimBoth rawQ))
        (get_weather
          ((lookupCoords (resolveL (trimBoth rawQ)) (get_coordinates env.geocode)).1.getD 0)
          ((lookupCoords (resolveL (trimBoth rawQ)) (get_coordinates env.geocode)).2.getD 0)
          env.weatherResp)
        (evaluate
          (windValOf (get_weather
            ((lookupCoords (resolveL (trimBoth rawQ)) (get_coordinates env.geocode)).1.getD 0)
            ((lookupCoords (resolveL (trimBoth rawQ)) (get_coordinates env.geocode)).2.getD 0)
            env.weatherResp).wind)
          (has_alert env.alertHtml) (resolveL (trimBoth rawQ))).1
        (crawl_beach_details (resolveL (trimBoth rawQ)) env.wikiResp) ∧
    (∀ (b : List Char) (w : Weather) (st : List Char) (d : Details),
      responseText b w st d =
        responseText b w st ⟨d.famous_for, d.hotspots.take 3, d.safety_rules.take 4, d.best_time⟩) := by
  constructor
  · simp [ask, hne, hloc, hai, answerOf, optTruthy]
  · intro b w st d
    simp [responseText, List.take_take]

set_option maxRecDepth 8000 in
/-- Witness for C8: question `"kovalam"` (static-table hit), no Groq
credential, all other fetches failing, yields exactly the template. -/
theorem claim8_template_witness :
    answerOf (ask ⟨none, false, none, none, none, none, none⟩ "kovalam".data).1 =
      responseText (resolveL (trimBoth "kovalam".data))
        (get_weather
          ((lookupCoords (resolveL (trimBoth "kovalam".data)) (get_coordinates none)).1.getD 0)
          ((lookupCoords (resolveL (trimBoth "kovalam".data)) (get_coordinates none)).2.getD 0)
          none)
        (evaluate
          (windValOf (get_weather
            ((lookupCoords (resolveL (trimBoth "kovalam".data)) (get_coordinates none)).1.getD 0)
            ((lookupCoords (resolveL (trimBoth "kovalam".data)) (get_coordinates none)).2.getD 0)
            none).wind)
          (has_alert none) (resolveL (trimBoth "kovalam".data))).1
        (crawl_beach_details (resolveL (trimBoth "kovalam".data)) none) :=
  (claim8_template_fallback ⟨none, false, none, none, none, none, none⟩ "kovalam".data
    (by decide) (by decide) rfl).1

/-- Claim C9: both `/ask` and `/chat` treat a falsy resolved latitude
as "location not found": when the beach misses the static table and the
geocoder returns latitude exactly `0.0` paired with some longitude,
both endpoints take the unresolved-location path (no full payload, no
weather/alert/detail fetches; `/chat` returns its error object). -/
theorem claim9_zero_latitude_unresolved (aenv : AskEnv) (cenv : ChatEnv)
    (rawQ rawM : List Char) (lonA lonC : ℚ)
    (haq : (trimBoth rawQ).isEmpty = false)
    (hat : lookupStatic (resolveL (trimBoth rawQ)) = none)
    (hag : aenv.geocode = some (0, lonA))
    (hcm : (trimBoth (lowerL rawM)).isEmpty = false)
    (hct : lookupStatic (if containsL "beach".data (trimBoth (lowerL rawM))
      then trimBoth (lowerL rawM) else trimBoth (lowerL rawM) ++ " beach".data) = none)
    (hcg : cenv.geocode = some (0, lonC)) :
    isFull (ask aenv rawQ).1 = false ∧
    (ask aenv rawQ).2 = [ExtCall.geocodeC, ExtCall.groqC] ∧
    (chat cenv rawM).1 = ChatResponse.err "Unable to locate this beach in India".data ∧
    (chat cenv rawM).2 = [ExtCall.geocodeC] := by
  have hfa : pyFalsy (lookupCoords (resolveL (trimBoth rawQ))
      (get_coordinates aenv.geocode)).1 = true := by
    simp [lookupCoords, hat, hag, get_coordinates, pyFalsy]
  have hfc : pyFalsy (lookupCoords
      (if containsL "beach".data (trimBoth (lowerL rawM))
        then trimBoth (lowerL rawM) else trimBoth (lowerL rawM) ++ " beach".data)
      (get_coordinates cenv.geocode)).1 = true := by
    simp [lookupCoords, hct, hcg, get_coordinates, pyFalsy]
  refine ⟨?_, ?_, ?_, ?_⟩
  · by_cases hai : optTruthy (groq_rewrite aenv.hasKey aenv.groqAns) = true <;>
      simp [ask, haq, hfa, hai, isFull]
  · by_cases hai : optTruthy (groq_rewrite aenv.hasKey aenv.groqAns) = true <;>
      simp [ask, haq, hfa, hai]
  · simp [chat, hcm, hfc]
  · simp [chat, hcm, hfc]

set_option maxRecDepth 8000 in
/-- Witness for C9 at the input `"atlantis"` for both endpoints, with
the geocoder reporting latitude `0` and longitude `5`. -/
theorem claim9_zero_latitude_witness :
    isFull (ask ⟨some (0, 5), false, none, none, none, none, none⟩ "atlantis".data).1 = false ∧
    (ask ⟨some (0, 5), false, none, none, none, none, none⟩ "atlantis".data).2 =
      [ExtCall.geocodeC, ExtCall.groqC] ∧
    (chat ⟨some (0, 5), false, none, none, none, none⟩ "atlantis".data).1 =
      ChatResponse.err "Unable to locate this beach in India".data ∧
    (chat ⟨some (0, 5), false, none, none, none, none⟩ "atlantis".data).2 =
      [ExtCall.geocodeC] :=
  claim9_zero_latitude_unresolved ⟨some (0, 5), false, none, none, none, none, none⟩
    ⟨some (0, 5), false, none, none, none, none⟩ "atlantis".data "atlantis".data 5 5
    (by decide) (by decide) rfl (by decide) (by decide) rfl

/-- Claim C10: for every input, `crawl_beach_details` keeps the default
entries as list prefixes — the hotspots list always starts with
`"Local shoreline"` and the safety-rules list with the two default
rules, because matched paragraphs are appended — and on any fetch or
parse failure the exact default structure is returned. -/
theorem claim10_default_prefixes (beach : List Char) (resp : Option (List (List Char))) :
    ["Local shoreline".data] <+: (crawl_beach_details beach resp).hotspots ∧
    ["Follow local advisories".data, "Avoid swimming during rough sea".data] <+:
      (crawl_beach_details beach resp).safety_rules ∧
    crawl_beach_details beach none = defaultDetails := by
  refine ⟨?_, ?_, rfl⟩ <;> cases resp with
  | none => exact prefRefl _
  | some paras =>
    simp only [crawl_beach_details]
    cases h : paras.take 4 with
    | nil => simp [defaultDetails, prefRefl]
    | cons q rest =>
      first
      | exact foldl_crawlStep_hotspots (q :: rest)
          { defaultDetails with famous_for := splitDot q }
      | exact foldl_crawlStep_rules (q :: rest)
          { defaultDetails with famous_for := splitDot q }

end BeachBot
